import Mathlib

/-!
# Verification of the Tanrenai training sidecar

A shallow embedding of the two source files of the repository:

* `src/server/sidecar/main.py` — the FastAPI orchestration layer: run
  registry (`_runs`), single-slot admission (`_current_run`), the
  `start_training`, `get_status` and `convert_to_gguf` handlers, and the
  background `_train` completion path.
* `src/gpu/sidecar/train.py` — the dataset transform
  (`load_dataset_from_jsonl`), the progress callback
  (`MetricsCallback.on_log`) and the final metrics of `run_training`.

Python dicts with heterogeneous values are modelled as association lists of
`String × MVal`; the external collaborators (trainer, subprocess, clock,
filesystem) are oracle parameters.  Machine floats of the source are
idealised as rationals; Python `round(x, 4)` (round-half-to-even) is
modelled exactly on `ℚ`.
-/

/-- A metrics value: the Python dicts mix numbers and strings. -/
inductive MVal where
  | num : ℚ → MVal
  | str : String → MVal
deriving DecidableEq

/-- A metrics dict, e.g. `{"train_loss": 0.8, "progress": 0.1}`. -/
abbrev Metrics := List (String × MVal)

/-- A record of the `_runs` registry, `src/server/sidecar/main.py`.
`run` is the `{"status": "training", "metrics": {}}` shape written at
admission, `done` the success shape, `failed` the
`{"status": "failed", "error": ...}` shape. -/
inductive RunRecord where
  | run : Metrics → RunRecord
  | done : Metrics → RunRecord
  | failed : String → RunRecord
deriving DecidableEq

/-- Whether a record has status `"training"`. -/
def RunRecord.isTraining : RunRecord → Bool
  | .run _ => true
  | _ => false

/-- Whether a record is in a terminal status (`"done"` or `"failed"`). -/
def RunRecord.isTerminal : RunRecord → Bool
  | .run _ => false
  | .done _ => true
  | .failed _ => true

/-- The module-level mutable state of `main.py`: `_current_run` and
`_runs` (the lock only serialises access; the sequentialised model needs
no lock). -/
structure ServerState where
  currentRun : Option String
  runs : List (String × RunRecord)
deriving DecidableEq

/-- The state at interpreter start: `_current_run = None`, `_runs = {}`. -/
def initState : ServerState := ⟨none, []⟩

/-- Python dict assignment `d[k] = v`: overwrite the binding of `k`,
keeping every other key bound as before. -/
def dset (d : List (String × RunRecord)) (k : String) (v : RunRecord) :
    List (String × RunRecord) :=
  (k, v) :: d.filter (fun p => p.1 ≠ k)

/-- The body of `TrainRequest` in `main.py` (pydantic model). -/
structure TrainRequest where
  dataset_path : String
  base_model_path : String
  output_dir : String
  run_id : Option String
  epochs : ℤ
  learning_rate : ℚ
  lora_rank : ℤ
  lora_alpha : ℤ
  batch_size : ℤ

/-- Python `opt or gen` for an optional string: `None` and `""` are falsy,
so `req.run_id or str(uuid.uuid4())[:12]` picks the caller id exactly when
it is present and non-empty. -/
def pyOrStr (o : Option String) (gen : String) : String :=
  match o with
  | none => gen
  | some s => if s = "" then gen else s

/-- An HTTP-style error: status code and detail message. -/
abbrev HttpErr := ℕ × String

/-- Handler `start_training` (`main.py` lines 52–89), sequentialised: under the
lock, reject with 409 if `_current_run` is set, else assign the run id,
claim the slot, insert the fresh registry record and reply
`{"run_id": run_id, "status": "training"}`.  `gen` stands for the value of
`str(uuid.uuid4())[:12]`. -/
def start_training (st : ServerState) (gen : String) (req : TrainRequest) :
    ServerState × Except HttpErr (String × String) :=
  match st.currentRun with
  | some r => (st, .error (409, "Training already in progress: " ++ r))
  | none =>
      let run_id := pyOrStr req.run_id gen
      (⟨some run_id, dset st.runs run_id (.run [])⟩, .ok (run_id, "training"))

/-- The tail of the background `_train` closure (`main.py` lines 66–84):
on a normal return of `run_training` store the `done` record, on any
exception store the `failed` record with the stringified error, and in the
`finally` block unconditionally clear `_current_run`. -/
def finishRun (st : ServerState) (run_id : String)
    (res : Except String Metrics) : ServerState :=
  match res with
  | .ok metrics => ⟨none, dset st.runs run_id (.done metrics)⟩
  | .error e => ⟨none, dset st.runs run_id (.failed e)⟩

/-- The dead loop of `get_status` (`main.py` lines 101–103): when the
stored status is `"training"` it iterates `_runs.values()` with a `pass`
body, so it computes nothing. -/
def statusLoop (runs : List (String × RunRecord)) (info : RunRecord) : Unit :=
  if info.isTraining then runs.foldl (fun u _ => u) () else ()

/-- Handler `get_status` (`main.py` lines 92–105): 404 for an unknown id, else
return the stored record (after the no-op loop). -/
def get_status (st : ServerState) (run_id : String) :
    Except HttpErr RunRecord :=
  match st.runs.lookup run_id with
  | none => .error (404, "Run " ++ run_id ++ " not found")
  | some info =>
      let _ := statusLoop st.runs info
      .ok info

/-- Modelled from the spec (§4.2, §6): the status query as the spec words
it — "read latest registry snapshot": a plain registry lookup, not-found
for an unknown run.  Used only to compare with `get_status`. -/
def getStatusSpec (st : ServerState) (run_id : String) :
    Except HttpErr RunRecord :=
  match st.runs.lookup run_id with
  | none => .error (404, "Run " ++ run_id ++ " not found")
  | some info => .ok info

/-- The observable events that mutate or read the server state.
`finish run_id res` is the completion of the background thread of
`run_id`; it can only fire while that thread exists, i.e. while
`_current_run = run_id` (set at admission, cleared only by this very
event's `finally`). -/
inductive Event where
  | start : String → TrainRequest → Event
  | finish : String → Except String Metrics → Event
  | query : String → Event

/-- One sequentialised step of the server. -/
def stepState (st : ServerState) : Event → ServerState
  | .start gen req => (start_training st gen req).1
  | .finish run_id res =>
      if st.currentRun = some run_id then finishRun st run_id res else st
  | .query _ => st

/-- The state after a trace of events from interpreter start. -/
def runTrace (evs : List Event) : ServerState :=
  evs.foldl stepState initState

/-! ## `src/gpu/sidecar/train.py` -/

/-- One message of a ChatML entry: `msg["role"]`, `msg["content"]`. -/
structure ChatMessage where
  role : String
  content : String

/-- The contribution of one message to the sample text, from the
`if`/`elif` chain of `load_dataset_from_jsonl` (`train.py` lines 22–30):
unrecognised roles add nothing. -/
def formatMsg (m : ChatMessage) : String :=
  if m.role = "system" then "<|system|>\n" ++ m.content ++ "</s>\n"
  else if m.role = "user" then "<|user|>\n" ++ m.content ++ "</s>\n"
  else if m.role = "assistant" then "<|assistant|>\n" ++ m.content ++ "</s>\n"
  else ""

/-- Whether the role is one of the three the transform recognises. -/
def roleRecognised (m : ChatMessage) : Bool :=
  m.role == "system" || m.role == "user" || m.role == "assistant"

/-- The `text` accumulator of one line: starts at `""` and appends the
segment of each message in order. -/
def entryText (msgs : List ChatMessage) : String :=
  msgs.foldl (fun text m => text ++ formatMsg m) ""

/-- Transform `load_dataset_from_jsonl` (`train.py` lines 14–32) after JSON parsing:
each input line contributes exactly one `{"text": ...}` sample. -/
def load_dataset_from_jsonl (entries : List (List ChatMessage)) :
    List String :=
  entries.map entryText

/-- Python `round` to an integer: round half to even (banker's rounding),
idealised from floats to `ℚ`. -/
def rndHalfEven (x : ℚ) : ℤ :=
  if x - ⌊x⌋ < 1 / 2 then ⌊x⌋
  else if 1 / 2 < x - ⌊x⌋ then ⌊x⌋ + 1
  else if ⌊x⌋ % 2 = 0 then ⌊x⌋ else ⌊x⌋ + 1

/-- Python `round(x, 4)` on `ℚ`. -/
def round4 (x : ℚ) : ℚ := (rndHalfEven (x * 10000) : ℚ) / 10000

/-- The progress expression of `MetricsCallback.on_log` (`train.py` line
47): `state.global_step / state.max_steps if state.max_steps > 0 else 0`. -/
def pyProgress (global_step max_steps : ℕ) : ℚ :=
  if max_steps > 0 then (global_step : ℚ) / (max_steps : ℚ) else 0

/-- Python `f"\x7belapsed:.1f\x7ds"`: the elapsed seconds rounded to one
decimal, with an `s` suffix. -/
def formatElapsed (elapsed : ℚ) : String :=
  let t := rndHalfEven (elapsed * 10)
  toString (t / 10) ++ "." ++ toString (t % 10).natAbs ++ "s"

/-- The `logs` dict passed to `on_log`; `loss` and `eval_loss` may be
absent (`logs.get(..., 0)` defaults them to `0`). -/
structure LogEvent where
  loss : Option ℚ
  eval_loss : Option ℚ
  global_step : ℕ
  max_steps : ℕ

/-- The metrics snapshot built by `on_log` (`train.py` lines 48–55). -/
def onLogSnapshot (ev : LogEvent) (elapsed : ℚ) : Metrics :=
  [("train_loss", .num (ev.loss.getD 0)),
   ("eval_loss", .num (ev.eval_loss.getD 0)),
   ("duration", .str (formatElapsed elapsed)),
   ("progress", .num (round4 (pyProgress ev.global_step ev.max_steps))),
   ("step", .num ev.global_step),
   ("max_steps", .num ev.max_steps)]

/-- The two artifact files `MetricsCallback` writes under the output
directory: `metrics.json` and `status.json`. -/
structure SideFiles where
  metricsFile : Option Metrics
  statusFile : Option String

/-- Callback `MetricsCallback.on_log` (`train.py` lines 43–57): if `logs is None`
do nothing, else overwrite `metrics.json` with the snapshot.  It touches
no other state — in particular not the server's `_runs` registry. -/
def on_log (files : SideFiles) (logs : Option LogEvent) (elapsed : ℚ) :
    SideFiles :=
  match logs with
  | none => files
  | some ev => { files with metricsFile := some (onLogSnapshot ev elapsed) }

/-- The final metrics dict of `run_training` (`train.py` lines 161–166),
returned to `_train` and stored in the registry at `done`. -/
def finalMetrics (training_loss : ℚ) (elapsed : ℚ) (samples_used : ℕ) :
    Metrics :=
  [("train_loss", .num training_loss),
   ("duration", .str (formatElapsed elapsed)),
   ("samples_used", .num samples_used),
   ("progress", .num 1)]

/-! ## The convert stage, `src/server/sidecar/main.py` lines 135–174 -/

/-- The body of `ConvertRequest` in `main.py`. -/
structure ConvertReq where
  model_dir : String
  output_path : String
  quantization : String

/-- The fixed ordered candidate locations of `convert_hf_to_gguf.py`
(`main.py` lines 143–147); `home` is `Path.home()`. -/
def searchPaths (home : String) : List String :=
  [home ++ "/.local/share/tanrenai/bin/convert_hf_to_gguf.py",
   "/usr/local/bin/convert_hf_to_gguf.py",
   "convert_hf_to_gguf.py"]

/-- The tool-discovery loop (`main.py` lines 148–151): the first existing
candidate wins.  `pathExists` is the filesystem oracle `Path.exists`. -/
def findScript (pathExists : String → Bool) (home : String) :
    Option String :=
  (searchPaths home).find? pathExists

/-- The message of the `FileNotFoundError` raised when no candidate
exists (`main.py` lines 154–157), as `str(e)` renders it. -/
def toolMissingMsg : String :=
  "convert_hf_to_gguf.py not found. Place it in ~/.local/share/tanrenai/bin/"

/-- The argv built for the subprocess (`main.py` lines 161–166). -/
def convertCmd (script : String) (req : ConvertReq) : List String :=
  ["python3", script, req.model_dir,
   "--outfile", req.output_path,
   "--outtype", req.quantization.toLower]

/-- The outcome of `subprocess.run(..., timeout=...)`: either completion
with an exit code and captured stderr, or a `TimeoutExpired` whose
`str(e)` is `msg`. -/
inductive SubprocResult where
  | completed : ℤ → String → SubprocResult
  | timedOut : String → SubprocResult

/-- Whether the character list contains a `/`. -/
def containsSlash : List Char → Bool
  | [] => false
  | c :: cs => c == '/' || containsSlash cs

/-- The characters of a path up to and including its last `/` — Python
`p[:p.rfind(sep) + 1]` — or `[]` when it has none. -/
def upToLastSlash : List Char → List Char
  | [] => []
  | c :: cs =>
      if containsSlash cs then c :: upToLastSlash cs
      else if c == '/' then [c] else []

/-- Python `os.path.dirname` on POSIX: everything up to the last `/`,
with trailing slashes stripped unless that head is empty or consists of
slashes only. -/
def pyDirname (p : String) : String :=
  let head := upToLastSlash p.data
  if head.isEmpty then ⟨head⟩
  else if head.all (fun c => c == '/') then ⟨head⟩
  else ⟨(head.reverse.dropWhile (fun c => c == '/')).reverse⟩

/-- Handler `convert_to_gguf` (`main.py` lines 135–174).  `mkdirs` is the
filesystem oracle for `os.makedirs(dir, exist_ok=True)` at line 159:
`none` means the call returned, `some e` that it raised an exception whose
`str(e)` is `e` — in which case the outer handler answers 500 before any
subprocess is spawned.  `runSub` is the subprocess oracle, taking the argv
and the timeout in seconds.  The second component records the subprocess
call the handler spawned, if any; every raised exception is caught and
rendered as a 500 with `str(e)`. -/
def convert_to_gguf (pathExists : String → Bool) (home : String)
    (mkdirs : String → Option String)
    (runSub : List String → ℕ → SubprocResult) (req : ConvertReq) :
    Except HttpErr (String × String) × Option (List String × ℕ) :=
  match findScript pathExists home with
  | none => (.error (500, toolMissingMsg), none)
  | some script =>
      match mkdirs (pyDirname req.output_path) with
      | some e => (.error (500, e), none)
      | none =>
          let cmd := convertCmd script req
          match runSub cmd 600 with
          | .completed rc stderr =>
              if rc ≠ 0 then
                (.error (500, "Conversion failed: " ++ stderr), some (cmd, 600))
              else
                (.ok ("ok", req.output_path), some (cmd, 600))
          | .timedOut msg => (.error (500, msg), some (cmd, 600))

/-- A `mkdirs` oracle for a healthy POSIX filesystem: every named
directory is creatable, but `os.makedirs("", exist_ok=True)` — reached
whenever the output path has no directory component — raises a
`FileNotFoundError` regardless of filesystem state. -/
def mkdirsEmptyFails : String → Option String :=
  fun d => if d = "" then some "[Errno 2] No such file or directory" else none

/-! ## Registry lemmas -/

theorem lookup_dset_self (d : List (String × RunRecord)) (k : String)
    (v : RunRecord) : (dset d k v).lookup k = some v := by
  simp [dset, List.lookup_cons]

theorem lookup_filter_ne (d : List (String × RunRecord)) (k k' : String)
    (h : k' ≠ k) :
    (d.filter (fun p => p.1 ≠ k)).lookup k' = d.lookup k' := by
  induction d with
  | nil => rfl
  | cons p d ih =>
      rcases p with ⟨a, v⟩
      by_cases hp : a = k
      · subst hp
        simp only [decide_not] at ih
        simp [List.filter_cons, List.lookup_cons, beq_false_of_ne h, ih]
      · by_cases ha : k' = a
        · subst ha
          simp [List.filter_cons, hp, List.lookup_cons]
        · simp only [decide_not] at ih
          simp [List.filter_cons, hp, List.lookup_cons, beq_false_of_ne ha, ih]

theorem lookup_dset_ne (d : List (String × RunRecord)) (k k' : String)
    (v : RunRecord) (h : k' ≠ k) :
    (dset d k v).lookup k' = d.lookup k' := by
  have hf := lookup_filter_ne d k k' h
  simp only [decide_not] at hf
  simp [dset, List.lookup_cons, beq_false_of_ne h, hf]

/-- The registry invariant the traces maintain: a record in `"training"`
status carries the empty metrics it was created with, and the active slot
always points at a record in `"training"` status. -/
def InvRegistry (st : ServerState) : Prop :=
  (∀ rid m, st.runs.lookup rid = some (.run m) → m = []) ∧
  (∀ rid, st.currentRun = some rid → ∃ m, st.runs.lookup rid = some (.run m))

theorem invRegistry_init : InvRegistry initState := by
  constructor
  · intro rid m h; simp [initState] at h
  · intro rid h; simp [initState] at h

theorem invRegistry_step (st : ServerState) (e : Event)
    (h : InvRegistry st) : InvRegistry (stepState st e) := by
  obtain ⟨h1, h2⟩ := h
  cases e with
  | start gen req =>
      cases hc : st.currentRun with
      | some r => simpa [stepState, start_training, hc] using ⟨h1, h2⟩
      | none =>
          simp only [stepState, start_training, hc]
          constructor
          · intro rid m hm
            by_cases hrid : rid = pyOrStr req.run_id gen
            · subst hrid
              rw [lookup_dset_self] at hm
              injection hm with hm
              injection hm with hm
              exact hm.symm
            · rw [lookup_dset_ne _ _ _ _ hrid] at hm
              exact h1 rid m hm
          · intro rid hrid
            injection hrid with hrid
            subst hrid
            exact ⟨[], lookup_dset_self _ _ _⟩
  | finish run_id res =>
      by_cases hc : st.currentRun = some run_id
      · have hstep : stepState st (.finish run_id res) = finishRun st run_id res := by
          simp [stepState, hc]
        rw [hstep]
        cases res with
        | ok m =>
            constructor
            · intro rid m' hm
              simp only [finishRun] at hm
              by_cases hrid : rid = run_id
              · subst hrid; rw [lookup_dset_self] at hm; exact absurd hm (by simp)
              · rw [lookup_dset_ne _ _ _ _ hrid] at hm; exact h1 rid m' hm
            · intro rid hrid; simp [finishRun] at hrid
        | error er =>
            constructor
            · intro rid m' hm
              simp only [finishRun] at hm
              by_cases hrid : rid = run_id
              · subst hrid; rw [lookup_dset_self] at hm; exact absurd hm (by simp)
              · rw [lookup_dset_ne _ _ _ _ hrid] at hm; exact h1 rid m' hm
            · intro rid hrid; simp [finishRun] at hrid
      · simpa [stepState, hc] using ⟨h1, h2⟩
  | query q => simpa [stepState] using ⟨h1, h2⟩

theorem invRegistry_foldl (evs : List Event) :
    ∀ st : ServerState, InvRegistry st →
      InvRegistry (evs.foldl stepState st) := by
  induction evs with
  | nil => intro st h; exact h
  | cons e evs ih =>
      intro st h
      exact ih (stepState st e) (invRegistry_step st e h)

theorem invRegistry_runTrace (evs : List Event) : InvRegistry (runTrace evs) :=
  invRegistry_foldl evs initState invRegistry_init

theorem lookup_isSome_step (st : ServerState) (e : Event) (rid : String)
    (h : (st.runs.lookup rid).isSome) :
    ((stepState st e).runs.lookup rid).isSome := by
  cases e with
  | start gen req =>
      cases hc : st.currentRun with
      | some r => simpa [stepState, start_training, hc] using h
      | none =>
          simp only [stepState, start_training, hc]
          by_cases hrid : rid = pyOrStr req.run_id gen
          · subst hrid; rw [lookup_dset_self]; rfl
          · rw [lookup_dset_ne _ _ _ _ hrid]; exact h
  | finish run_id res =>
      by_cases hc : st.currentRun = some run_id
      · have hstep : stepState st (.finish run_id res) = finishRun st run_id res := by
          simp [stepState, hc]
        rw [hstep]
        cases res with
        | ok m =>
            by_cases hrid : rid = run_id
            · subst hrid; simp [finishRun, lookup_dset_self]
            · simpa [finishRun, lookup_dset_ne _ _ _ _ hrid] using h
        | error er =>
            by_cases hrid : rid = run_id
            · subst hrid; simp [finishRun, lookup_dset_self]
            · simpa [finishRun, lookup_dset_ne _ _ _ _ hrid] using h
      · simpa [stepState, hc] using h
  | query q => simpa [stepState] using h

theorem lookup_isSome_foldl (evs : List Event) :
    ∀ (st : ServerState) (rid : String), (st.runs.lookup rid).isSome →
      ((evs.foldl stepState st).runs.lookup rid).isSome := by
  induction evs with
  | nil => intro st rid h; exact h
  | cons e evs ih =>
      intro st rid h
      exact ih (stepState st e) rid (lookup_isSome_step st e rid h)

theorem terminal_step (st : ServerState) (e : Event) (rid : String)
    (r : RunRecord) (hinv : InvRegistry st)
    (hr : st.runs.lookup rid = some r) (hterm : r.isTerminal = true)
    (hstart : ∀ gen req, e = .start gen req → pyOrStr req.run_id gen ≠ rid) :
    (stepState st e).runs.lookup rid = some r := by
  cases e with
  | start gen req =>
      cases hc : st.currentRun with
      | some r2 => simpa [stepState, start_training, hc] using hr
      | none =>
          have hne : rid ≠ pyOrStr req.run_id gen :=
            Ne.symm (hstart gen req rfl)
          simp only [stepState, start_training, hc]
          rw [lookup_dset_ne _ _ _ _ hne]
          exact hr
  | finish run_id res =>
      by_cases hc : st.currentRun = some run_id
      · obtain ⟨m, hm⟩ := hinv.2 run_id hc
        have hne : rid ≠ run_id := by
          rintro rfl
          rw [hr] at hm
          injection hm with hm
          subst hm
          simp [RunRecord.isTerminal] at hterm
        have hstep : stepState st (.finish run_id res) = finishRun st run_id res := by
          simp [stepState, hc]
        rw [hstep]
        cases res with
        | ok m2 =>
            simp only [finishRun]
            rw [lookup_dset_ne _ _ _ _ hne]; exact hr
        | error er =>
            simp only [finishRun]
            rw [lookup_dset_ne _ _ _ _ hne]; exact hr
      · simpa [stepState, hc] using hr
  | query q => simpa [stepState] using hr

theorem terminal_foldl (more : List Event) :
    ∀ (st : ServerState), InvRegistry st →
      ∀ (rid : String) (r : RunRecord),
        st.runs.lookup rid = some r → r.isTerminal = true →
        (∀ gen req, Event.start gen req ∈ more → pyOrStr req.run_id gen ≠ rid) →
        (more.foldl stepState st).runs.lookup rid = some r := by
  induction more with
  | nil => intro st _ rid r hr _ _; exact hr
  | cons e more ih =>
      intro st hinv rid r hr hterm hstart
      have hr' := terminal_step st e rid r hinv hr hterm
        (fun gen req he => hstart gen req (by rw [he]; exact List.mem_cons_self _ _))
      exact ih (stepState st e) (invRegistry_step st e hinv) rid r hr' hterm
        (fun gen req hm => hstart gen req (List.mem_cons_of_mem _ hm))

/-! ## Rounding and progress lemmas -/

theorem rndHalfEven_ge_floor (x : ℚ) : ⌊x⌋ ≤ rndHalfEven x := by
  unfold rndHalfEven; split_ifs <;> omega

theorem rndHalfEven_le_succ_floor (x : ℚ) : rndHalfEven x ≤ ⌊x⌋ + 1 := by
  unfold rndHalfEven; split_ifs <;> omega

theorem rndHalfEven_mono {x y : ℚ} (h : x ≤ y) :
    rndHalfEven x ≤ rndHalfEven y := by
  have hf : (⌊x⌋ : ℤ) ≤ ⌊y⌋ := Int.floor_le_floor h
  rcases eq_or_lt_of_le hf with heq | hlt
  · unfold rndHalfEven
    rw [← heq]
    split_ifs <;> first | omega | linarith
  · calc rndHalfEven x ≤ ⌊x⌋ + 1 := rndHalfEven_le_succ_floor x
    _ ≤ ⌊y⌋ := by omega
    _ ≤ rndHalfEven y := rndHalfEven_ge_floor y

theorem round4_mono {x y : ℚ} (h : x ≤ y) : round4 x ≤ round4 y := by
  unfold round4
  have h2 : (rndHalfEven (x * 10000) : ℚ) ≤ (rndHalfEven (y * 10000) : ℚ) := by
    exact_mod_cast rndHalfEven_mono (by linarith)
  gcongr

theorem pyProgress_mono (max_steps : ℕ) {s1 s2 : ℕ} (h : s1 ≤ s2) :
    pyProgress s1 max_steps ≤ pyProgress s2 max_steps := by
  unfold pyProgress
  split_ifs with hM
  · have hM' : (0 : ℚ) < max_steps := by exact_mod_cast hM
    gcongr
  · exact le_refl _

/-- The progress value `on_log` records at step `s` of a run whose
trainer state reports `max_steps = M`. -/
def progressAt (M s : ℕ) : ℚ := round4 (pyProgress s M)

theorem progressAt_mono (M : ℕ) {s1 s2 : ℕ} (h : s1 ≤ s2) :
    progressAt M s1 ≤ progressAt M s2 :=
  round4_mono (pyProgress_mono M h)

/-! ## Dataset-transform lemmas -/

theorem foldl_append_str (l : List String) : ∀ s t : String,
    List.foldl (fun r x => r ++ x) (s ++ t) l =
      s ++ List.foldl (fun r x => r ++ x) t l := by
  induction l with
  | nil => intro s t; rfl
  | cons x xs ih => intro s t; simp only [List.foldl_cons, String.append_assoc, ih]

theorem join_cons_str (s : String) (l : List String) :
    String.join (s :: l) = s ++ String.join l := by
  have h := foldl_append_str l s ""
  simpa [String.join] using h

theorem entryText_eq_join (msgs : List ChatMessage) :
    entryText msgs = String.join (msgs.map formatMsg) := by
  unfold entryText String.join
  rw [List.foldl_map]

theorem formatMsg_of_unrecognised {m : ChatMessage}
    (h : roleRecognised m = false) : formatMsg m = "" := by
  unfold roleRecognised at h
  simp only [Bool.or_eq_false_iff, beq_eq_false_iff_ne, ne_eq] at h
  simp [formatMsg, h.1.1, h.1.2, h.2]

theorem join_filter_formatMsg (msgs : List ChatMessage) :
    String.join ((msgs.filter roleRecognised).map formatMsg) =
      String.join (msgs.map formatMsg) := by
  induction msgs with
  | nil => rfl
  | cons m rest ih =>
      by_cases hm : roleRecognised m
      · simp only [List.filter_cons, hm, if_pos, List.map_cons, join_cons_str, ih]
      · have hm' : roleRecognised m = false := Bool.eq_false_iff.mpr hm
        have he : formatMsg m = "" := formatMsg_of_unrecognised hm'
        rw [List.filter_cons, if_neg (by simp [hm']), ih, List.map_cons,
          join_cons_str, he]
        rfl

/-! ## Claim theorems -/

/-- A concrete training request used to instantiate the theorems with
hypotheses: the caller supplies `run_id = "abc123"` and the default
hyperparameters of `TrainRequest` (`epochs=3`, `learning_rate=2e-4`,
`lora_rank=16`, `lora_alpha=32`, `batch_size=4`). -/
def reqSample : TrainRequest :=
  { dataset_path := "data.jsonl"
    base_model_path := "base-model"
    output_dir := "out"
    run_id := some "abc123"
    epochs := 3
    learning_rate := 1 / 5000
    lora_rank := 16
    lora_alpha := 32
    batch_size := 4 }

/-- C1: a start-training request is rejected with a 409 naming the active
run and leaves the whole state — in particular the registry — untouched
whenever a run is active; with no active run it is admitted: the assigned
run id (the caller's if given, else the generated one) is claimed as the
active slot, a record with status `"training"` and empty metrics is
inserted under it, no other registry key changes, and the reply is that
run id with status `"training"`. -/
theorem start_training_admission (st : ServerState) (gen : String)
    (req : TrainRequest) :
    (∀ r, st.currentRun = some r →
      start_training st gen req =
        (st, .error (409, "Training already in progress: " ++ r))) ∧
    (st.currentRun = none →
      start_training st gen req =
        (⟨some (pyOrStr req.run_id gen),
          dset st.runs (pyOrStr req.run_id gen) (.run [])⟩,
         .ok (pyOrStr req.run_id gen, "training")) ∧
      (start_training st gen req).1.runs.lookup (pyOrStr req.run_id gen) =
        some (.run []) ∧
      (∀ rid, rid ≠ pyOrStr req.run_id gen →
        (start_training st gen req).1.runs.lookup rid = st.runs.lookup rid) ∧
      (req.run_id = none → pyOrStr req.run_id gen = gen) ∧
      (∀ s, req.run_id = some s → s ≠ "" → pyOrStr req.run_id gen = s)) := by
  constructor
  · intro r h
    simp [start_training, h]
  · intro h
    refine ⟨by simp [start_training, h], ?_, ?_, ?_, ?_⟩
    · simp [start_training, h, lookup_dset_self]
    · intro rid hne
      simp [start_training, h, lookup_dset_ne _ _ _ _ hne]
    · intro h0
      simp [pyOrStr, h0]
    · intro s hs hne
      simp [pyOrStr, hs, hne]

/-- Witness for C1 at concrete inputs: a request while `"abc123"` is
active is rejected without side effects, and the same request against the
fresh state is admitted under the caller-supplied id. -/
theorem start_training_admission_witness :
    start_training ⟨some "abc123", []⟩ "gen0" reqSample =
      (⟨some "abc123", []⟩,
       .error (409, "Training already in progress: " ++ "abc123")) ∧
    (start_training initState "gen0" reqSample).2 =
      .ok (pyOrStr reqSample.run_id "gen0", "training") :=
  ⟨(start_training_admission ⟨some "abc123", []⟩ "gen0" reqSample).1
      "abc123" rfl,
   congrArg Prod.snd
     (((start_training_admission initState "gen0" reqSample).2 rfl).1)⟩

/-- C2: after the background `_train` body finishes — normally or through
the exception handler, which stores the stringified error instead of
re-raising — the active slot is cleared on every terminal transition, the
registry holds the corresponding `"failed"` or `"done"` record, and a
subsequent admission attempt always succeeds. -/
theorem train_failure_isolation (st : ServerState) (run_id : String)
    (res : Except String Metrics) :
    (finishRun st run_id res).currentRun = none ∧
    (∀ e, res = .error e →
      (finishRun st run_id res).runs.lookup run_id = some (.failed e)) ∧
    (∀ m, res = .ok m →
      (finishRun st run_id res).runs.lookup run_id = some (.done m)) ∧
    (∀ gen req, (start_training (finishRun st run_id res) gen req).2 =
      .ok (pyOrStr req.run_id gen, "training")) := by
  refine ⟨?_, ?_, ?_, ?_⟩
  · cases res <;> rfl
  · intro e he; subst he; simp [finishRun, lookup_dset_self]
  · intro m hm; subst hm; simp [finishRun, lookup_dset_self]
  · intro gen req; cases res <;> simp [finishRun, start_training]

/-- Witness for C2: a run that raised `"boom"` is recorded as failed, the
slot is free, and the next admission succeeds immediately. -/
theorem train_failure_isolation_witness :
    (finishRun ⟨some "abc123", dset [] "abc123" (.run [])⟩ "abc123"
        (.error "boom")).runs.lookup "abc123" = some (.failed "boom") ∧
    (start_training (finishRun ⟨some "abc123", dset [] "abc123" (.run [])⟩
        "abc123" (.error "boom")) "gen1" reqSample).2 =
      .ok (pyOrStr reqSample.run_id "gen1", "training") :=
  ⟨(train_failure_isolation ⟨some "abc123", dset [] "abc123" (.run [])⟩
      "abc123" (.error "boom")).2.1 "boom" rfl,
   (train_failure_isolation ⟨some "abc123", dset [] "abc123" (.run [])⟩
      "abc123" (.error "boom")).2.2.2 "gen1" reqSample⟩

/-- C5: the progress expression of `on_log` is `0` whenever
`max_steps = 0`, equals `global_step / max_steps` whenever
`max_steps > 0`, and the snapshot records exactly its 4-decimal rounding
under the key `"progress"` — the guard makes the division-by-zero case
unreachable. -/
theorem progress_division_guard (global_step max_steps : ℕ)
    (ev : LogEvent) (elapsed : ℚ) :
    pyProgress global_step 0 = 0 ∧
    (0 < max_steps →
      pyProgress global_step max_steps = (global_step : ℚ) / max_steps) ∧
    (onLogSnapshot ev elapsed).lookup "progress" =
      some (.num (round4 (pyProgress ev.global_step ev.max_steps))) := by
  refine ⟨rfl, fun h => by simp [pyProgress, h], rfl⟩

/-- Witness for C5 at `global_step = 3`, `max_steps = 10`. -/
theorem progress_division_guard_witness :
    pyProgress 3 0 = 0 ∧
    pyProgress 3 10 = (3 : ℚ) / 10 ∧
    (onLogSnapshot ⟨some (4 / 5), none, 1, 10⟩ 5).lookup "progress" =
      some (.num (round4 (pyProgress 1 10))) :=
  ⟨(progress_division_guard 3 10 ⟨some (4 / 5), none, 1, 10⟩ 5).1,
   (progress_division_guard 3 10 ⟨some (4 / 5), none, 1, 10⟩ 5).2.1
     (by decide),
   (progress_division_guard 3 10 ⟨some (4 / 5), none, 1, 10⟩ 5).2.2⟩

/-- C6: a status query for a run id that is not in the registry returns a
404 naming that id; the handler is total, so it never crashes. -/
theorem unknown_run_not_found (st : ServerState) (run_id : String)
    (h : st.runs.lookup run_id = none) :
    get_status st run_id = .error (404, "Run " ++ run_id ++ " not found") := by
  simp [get_status, h]

/-- Witness for C6: querying `"ghost"` against the fresh registry. -/
theorem unknown_run_not_found_witness :
    get_status initState "ghost" =
      .error (404, "Run " ++ "ghost" ++ " not found") :=
  unknown_run_not_found initState "ghost" rfl

/-- C3, the failing input evaluated: after run `"abc123"` is admitted, a
trainer log event with `step 1` of `max_steps 10` makes `on_log` write a
snapshot whose `"progress"` is `0.1` — but only to the `metrics.json`
artifact; the registry record is untouched, so the status query issued
while the run is `"training"` still returns the empty metrics created at
admission instead of the reported progress. -/
theorem status_misses_progress_snapshot :
    get_status (runTrace [Event.start "gen0" reqSample]) "abc123" =
      .ok (.run []) ∧
    (onLogSnapshot ⟨some (4 / 5), none, 1, 10⟩ 5).lookup "progress" =
      some (.num (1 / 10)) ∧
    (on_log ⟨none, none⟩ (some ⟨some (4 / 5), none, 1, 10⟩) 5).metricsFile =
      some (onLogSnapshot ⟨some (4 / 5), none, 1, 10⟩ 5) := by
  refine ⟨rfl, ?_, rfl⟩
  show some (MVal.num (round4 (pyProgress 1 10))) = some (MVal.num (1 / 10))
  norm_num [round4, rndHalfEven, pyProgress]

/-- C4: within a run whose trainer state reports a fixed `max_steps`, if
the step counter never decreases then the successive recorded progress
values never decrease, and the final metrics stored at the `"done"`
transition carry `progress = 1.0` exactly. -/
theorem progress_monotone_to_done (M : ℕ) (steps : List ℕ)
    (hsteps : steps.Chain' (· ≤ ·)) :
    (steps.map (progressAt M)).Chain' (· ≤ ·) ∧
    (∀ loss elapsed n,
      (finalMetrics loss elapsed n).lookup "progress" = some (.num 1)) := by
  constructor
  · rw [List.chain'_map]
    exact hsteps.imp (fun a b hab => progressAt_mono M hab)
  · intro loss elapsed n; rfl

/-- Witness for C4 at `max_steps = 10`, steps `1, 2`. -/
theorem progress_monotone_to_done_witness :
    (([1, 2].map (progressAt 10)).Chain' (· ≤ ·)) ∧
    (finalMetrics (42 / 100) 5 2).lookup "progress" = some (.num 1) :=
  ⟨(progress_monotone_to_done 10 [1, 2] (by simp)).1,
   (progress_monotone_to_done 10 [1, 2] (by simp)).2 (42 / 100) 5 2⟩

/-- Counterexample to C7 as stated: the claim's "succeeds iff a
candidate tool path exists and the subprocess exits with code zero" and
its three-way failure taxonomy miss the `os.makedirs` call of `main.py`
line 159.  With the first candidate present and a subprocess that would
exit 0, an output path with no directory component (here `"out.gguf"`,
whose dirname is `""`) makes `os.makedirs("", exist_ok=True)` raise, so
the handler answers a 500 with the OS error and spawns no subprocess. -/
theorem convert_makedirs_counterexample :
    findScript (fun _ => true) "/root" =
      some "/root/.local/share/tanrenai/bin/convert_hf_to_gguf.py" ∧
    pyDirname "out.gguf" = "" ∧
    convert_to_gguf (fun _ => true) "/root" mkdirsEmptyFails
        (fun _ _ => .completed 0 "") ⟨"m", "out.gguf", "Q4_K_M"⟩ =
      (.error (500, "[Errno 2] No such file or directory"), none) := by
  exact ⟨rfl, rfl, rfl⟩

/-- C7 amended: the convert handler searches the fixed ordered candidate
list and uses the first existing path; with no candidate it fails with
the tool-missing message and spawns no subprocess; with a candidate it
first creates the output path's directory, and if that call raises it
fails with the OS error, again spawning no subprocess; otherwise it
spawns exactly the documented command under the 600-second timeout and
succeeds with the output path iff the subprocess exits 0, reporting the
captured stderr on a non-zero exit and the timeout message on a
timeout. -/
theorem convert_tool_discovery_and_outcome (pathExists : String → Bool)
    (home : String) (mkdirs : String → Option String)
    (runSub : List String → ℕ → SubprocResult) (req : ConvertReq) :
    (findScript pathExists home = none →
      convert_to_gguf pathExists home mkdirs runSub req =
        (.error (500, toolMissingMsg), none)) ∧
    (∀ script, findScript pathExists home = some script →
      pathExists script = true ∧ script ∈ searchPaths home ∧
      (∀ e, mkdirs (pyDirname req.output_path) = some e →
        convert_to_gguf pathExists home mkdirs runSub req =
          (.error (500, e), none)) ∧
      (mkdirs (pyDirname req.output_path) = none →
        (convert_to_gguf pathExists home mkdirs runSub req).2 =
          some (convertCmd script req, 600) ∧
        (∀ stderr, runSub (convertCmd script req) 600 = .completed 0 stderr →
          (convert_to_gguf pathExists home mkdirs runSub req).1 =
            .ok ("ok", req.output_path)) ∧
        (∀ rc stderr,
          runSub (convertCmd script req) 600 = .completed rc stderr → rc ≠ 0 →
          (convert_to_gguf pathExists home mkdirs runSub req).1 =
            .error (500, "Conversion failed: " ++ stderr)) ∧
        (∀ msg, runSub (convertCmd script req) 600 = .timedOut msg →
          (convert_to_gguf pathExists home mkdirs runSub req).1 =
            .error (500, msg)))) := by
  constructor
  · intro h
    simp [convert_to_gguf, h]
  · intro script hs
    refine ⟨List.find?_some hs, List.mem_of_find?_eq_some hs, ?_, ?_⟩
    · intro e he
      simp [convert_to_gguf, hs, he]
    · intro hmk
      refine ⟨?_, ?_, ?_, ?_⟩
      · simp only [convert_to_gguf, hs, hmk]
        cases hrun : runSub (convertCmd script req) 600 with
        | completed rc stderr => by_cases h0 : rc = 0 <;> simp [h0]
        | timedOut msg => rfl
      · intro stderr h0
        simp [convert_to_gguf, hs, hmk, h0]
      · intro rc stderr hrc hne
        simp [convert_to_gguf, hs, hmk, hrc, hne]
      · intro msg hm
        simp [convert_to_gguf, hs, hmk, hm]

/-- Witness for the amended C7: an empty filesystem yields the
tool-missing failure with no subprocess; an existing candidate with a
failing directory creation yields the OS error with no subprocess; an
existing candidate, a creatable output directory and a subprocess that
exits 0 yield success. -/
theorem convert_tool_discovery_and_outcome_witness :
    convert_to_gguf (fun _ => false) "/root" (fun _ => none)
        (fun _ _ => .completed 0 "") ⟨"m", "gguf/out.gguf", "Q4_K_M"⟩ =
      (.error (500, toolMissingMsg), none) ∧
    convert_to_gguf (fun _ => true) "/root" mkdirsEmptyFails
        (fun _ _ => .completed 0 "") ⟨"m", "out.gguf", "Q4_K_M"⟩ =
      (.error (500, "[Errno 2] No such file or directory"), none) ∧
    (convert_to_gguf (fun _ => true) "/root" (fun _ => none)
        (fun _ _ => .completed 0 "") ⟨"m", "gguf/out.gguf", "Q4_K_M"⟩).1 =
      .ok ("ok", "gguf/out.gguf") :=
  ⟨(convert_tool_discovery_and_outcome (fun _ => false) "/root"
      (fun _ => none) (fun _ _ => .completed 0 "")
      ⟨"m", "gguf/out.gguf", "Q4_K_M"⟩).1 rfl,
   ((convert_tool_discovery_and_outcome (fun _ => true) "/root"
      mkdirsEmptyFails (fun _ _ => .completed 0 "")
      ⟨"m", "out.gguf", "Q4_K_M"⟩).2
      "/root/.local/share/tanrenai/bin/convert_hf_to_gguf.py" rfl).2.2.1
      "[Errno 2] No such file or directory" rfl,
   (((convert_tool_discovery_and_outcome (fun _ => true) "/root"
      (fun _ => none) (fun _ _ => .completed 0 "")
      ⟨"m", "gguf/out.gguf", "Q4_K_M"⟩).2
      "/root/.local/share/tanrenai/bin/convert_hf_to_gguf.py" rfl).2.2.2
      rfl).2.1 "" rfl⟩

/-- Counterexample to C8 as stated: run `"abc123"` (caller-supplied id)
reaches the terminal record `done` — yet a later start-training request
that re-uses the same `run_id` is admitted, because only the active-slot
marker is checked, and `_runs[run_id] = ...` overwrites the terminal
record with a fresh `"training"` record with empty metrics. -/
theorem terminal_record_overwritten :
    (runTrace [Event.start "g1" reqSample,
      Event.finish "abc123" (.ok [("progress", .num 1)])]).runs.lookup
        "abc123" = some (.done [("progress", .num 1)]) ∧
    (runTrace [Event.start "g1" reqSample,
      Event.finish "abc123" (.ok [("progress", .num 1)]),
      Event.start "g2" reqSample]).runs.lookup "abc123" =
      some (.run []) := by
  exact ⟨by decide, by decide⟩

/-- C8 amended: every record entered into the registry remains
retrievable under its `run_id` across the rest of the process lifetime
(records are never deleted and their key never changes); and once a run
reaches a terminal status its record is not modified again — provided no
later start-training request is admitted under that same `run_id`, since
the code re-admits freely once the slot is clear and overwrites the old
record. -/
theorem registry_permanence (evs more : List Event) (rid : String)
    (r : RunRecord) (hr : (runTrace evs).runs.lookup rid = some r) :
    (((runTrace (evs ++ more)).runs.lookup rid).isSome = true) ∧
    (r.isTerminal = true →
      (∀ gen req, Event.start gen req ∈ more → pyOrStr req.run_id gen ≠ rid) →
      (runTrace (evs ++ more)).runs.lookup rid = some r) := by
  have hfold : runTrace (evs ++ more) = more.foldl stepState (runTrace evs) := by
    simp [runTrace, List.foldl_append]
  rw [hfold]
  constructor
  · exact lookup_isSome_foldl more (runTrace evs) rid (by simp [hr])
  · intro hterm hstart
    exact terminal_foldl more (runTrace evs) (invRegistry_runTrace evs)
      rid r hr hterm hstart

/-- Witness for the amended C8: the terminal record of `"abc123"` is
still retrievable and unchanged after a further query event. -/
theorem registry_permanence_witness :
    (((runTrace ([Event.start "g1" reqSample,
        Event.finish "abc123" (.ok [])] ++ [Event.query "z"])).runs.lookup
      "abc123").isSome = true) ∧
    (runTrace ([Event.start "g1" reqSample,
        Event.finish "abc123" (.ok [])] ++ [Event.query "z"])).runs.lookup
      "abc123" = some (.done []) :=
  have h := registry_permanence [Event.start "g1" reqSample,
      Event.finish "abc123" (.ok [])] [Event.query "z"] "abc123" (.done [])
      (by decide)
  ⟨h.1, h.2 rfl (by intro gen req hmem; simp at hmem)⟩

/-- C9: the status query is observationally a plain registry lookup — the
dead loop contributes nothing — and on any reachable state a record still
in `"training"` status carries exactly the empty metrics written at
admission, since nothing updates the in-memory record mid-run. -/
theorem get_status_is_plain_lookup :
    (∀ st run_id, get_status st run_id = getStatusSpec st run_id) ∧
    (∀ evs run_id m,
      (runTrace evs).runs.lookup run_id = some (.run m) → m = []) := by
  constructor
  · intro st run_id
    unfold get_status getStatusSpec
    cases st.runs.lookup run_id <;> rfl
  · intro evs run_id m hm
    exact (invRegistry_runTrace evs).1 run_id m hm

/-- Witness for C9: concrete agreement of the two definitions, and the
admitted run's `"training"` record carries empty metrics. -/
theorem get_status_is_plain_lookup_witness :
    get_status initState "abc123" = getStatusSpec initState "abc123" ∧
    ([] : Metrics) = [] :=
  ⟨get_status_is_plain_lookup.1 initState "abc123",
   get_status_is_plain_lookup.2 [Event.start "g1" reqSample] "abc123" []
     (by decide)⟩

/-- C10: the transform yields one sample per input line; each sample text
is the in-order concatenation of the role-tagged segments of its
recognised messages, with the exact segment shapes of the source;
messages with any other role are skipped silently, and a line of only
unrecognised roles yields the empty text. -/
theorem dataset_transform_shape (entries : List (List ChatMessage))
    (msgs : List ChatMessage) :
    (load_dataset_from_jsonl entries).length = entries.length ∧
    entryText msgs =
      String.join ((msgs.filter roleRecognised).map formatMsg) ∧
    (∀ c, formatMsg ⟨"system", c⟩ = "<|system|>\n" ++ c ++ "</s>\n") ∧
    (∀ c, formatMsg ⟨"user", c⟩ = "<|user|>\n" ++ c ++ "</s>\n") ∧
    (∀ c, formatMsg ⟨"assistant", c⟩ = "<|assistant|>\n" ++ c ++ "</s>\n") ∧
    ((∀ m ∈ msgs, roleRecognised m = false) → entryText msgs = "") := by
  refine ⟨by simp [load_dataset_from_jsonl], ?_,
    fun c => by simp [formatMsg], fun c => by simp [formatMsg],
    fun c => by simp [formatMsg], ?_⟩
  · rw [entryText_eq_join]
    exact (join_filter_formatMsg msgs).symm
  · intro h
    have hnil : msgs.filter roleRecognised = [] :=
      List.filter_eq_nil_iff.mpr (by intro a ha; simp [h a ha])
    rw [entryText_eq_join, ← join_filter_formatMsg, hnil]
    rfl

/-- Witness for C10: one line in, one sample out; a line whose only
message has role `"tool"` yields the empty text. -/
theorem dataset_transform_shape_witness :
    (load_dataset_from_jsonl [[⟨"system", "hi"⟩]]).length = 1 ∧
    entryText [⟨"tool", "x"⟩] = "" :=
  ⟨(dataset_transform_shape [[⟨"system", "hi"⟩]] [⟨"tool", "x"⟩]).1,
   (dataset_transform_shape [[⟨"system", "hi"⟩]] [⟨"tool", "x"⟩]).2.2.2.2.2
     (by intro m hm; simp at hm; subst hm; rfl)⟩
